import Mathlib

/- Formal model of the backend server of the UCSD-CSE-118-Team-6 repository.

   The repository contains two implementations of the connection manager:
   connection_manager.py (namespace ConnMgr below) and the manager class
   inlined in main.py (namespace MainPy below).  Python objects are modelled
   as records identified by their client_id (uuid4 strings, unique in any
   reachable state; uniqueness appears as an explicit freshness hypothesis
   where it matters).  The list active_connections serves as the object heap:
   the dict clients_by_id is, in the source, always kept in sync with
   active_connections (both are modified only together, in connect and in
   disconnect), so it is modelled as an id-indexed lookup over the same list.
   Language groups store client ids, standing for the object references the
   source stores; list.remove on objects is removal of the first occurrence
   of the id.  Sending a payload over a websocket is modelled as emitting a
   pair (recipient client id, payload).  Wall-clock timestamps are threaded
   as an explicit parameter.  The DeepL and Whisper collaborators are
   black-box oracle parameters, an Option result modelling an exception as
   none. -/

/-- Python str.lower modelled characterwise (all codes involved are ASCII). -/
def py_lower (s : String) : String := String.mk (s.data.map Char.toLower)

/-- Python str.upper modelled characterwise. -/
def py_upper (s : String) : String := String.mk (s.data.map Char.toUpper)

/-- Python slicing s[:n]. -/
def py_take (n : Nat) (s : String) : String := String.mk (s.data.take n)

/-- Python whitespace characters recognized by str.strip (ASCII range). -/
def is_py_space (c : Char) : Bool :=
  c = ' ' || c = '\t' || c = '\n' || c = '\r' || c = Char.ofNat 11 || c = Char.ofNat 12

/-- Python str.strip (both ends). -/
def py_strip (s : String) : String :=
  String.mk (((s.data.dropWhile is_py_space).reverse.dropWhile is_py_space).reverse)

/-- Python truthiness of an Optional[str]: None and the empty string are falsy. -/
def opt_truthy : Option String → Bool
  | none => false
  | some s => !(s == "")

/-- Python f-string interpolation of an Optional[str]: None prints as the text None. -/
def py_str_opt : Option String → String
  | none => "None"
  | some s => s

/-- Language-group table shared verbatim by connection_manager.py and main.py:
add_to_lang_group is dict.setdefault(lang, []).append(client). Keys are unique
(dict), so appending to the first matching key is faithful. -/
def add_to_lang_group : List (String × List String) → String → String → List (String × List String)
  | [], lang, cid => [(lang, [cid])]
  | p :: g, lang, cid =>
    if p.1 = lang then (p.1, p.2 ++ [cid]) :: g else p :: add_to_lang_group g lang cid

/-- remove_from_all_lang_groups, identical in both files: for each group that
contains the client, remove its first occurrence, and delete the group if it
became empty. -/
def remove_from_all_lang_groups : List (String × List String) → String → List (String × List String)
  | [], _ => []
  | p :: g, cid =>
    if cid ∈ p.2 then
      (if p.2.erase cid = [] then [] else [(p.1, p.2.erase cid)]) ++ remove_from_all_lang_groups g cid
    else p :: remove_from_all_lang_groups g cid

namespace ConnMgr

/-- models.py MessageType: exactly the members declared there. -/
inductive MessageType where
  | hello
  | set_lang
  | chat
  | personal_chat
  | error
  | heartbeat
deriving DecidableEq

/-- Python attribute access MessageType.NAME on the enum class: some member,
or an AttributeError (none) when the name is not declared in models.py. -/
def MessageType.attr : String → Option MessageType
  | "HELLO" => some .hello
  | "SET_LANG" => some .set_lang
  | "CHAT" => some .chat
  | "PERSONAL_CHAT" => some .personal_chat
  | "ERROR" => some .error
  | "HEARTBEAT" => some .heartbeat
  | _ => none

/-- models.py DisplayRole. -/
inductive DisplayRole where
  | incoming
  | outgoing
  | neutral
deriving DecidableEq

/-- connection_manager.py ClientConnection; ws models the websocket handle. -/
structure ClientConnection where
  ws : Nat
  client_id : String
  preferred_lang : String
  display_name : String
deriving DecidableEq

/-- ConnectionManager state: active_connections (also indexed as clients_by_id),
lang_groups and pi_client_id. -/
structure State where
  active_connections : List ClientConnection
  lang_groups : List (String × List String)
  pi_client_id : Option String
deriving DecidableEq

/-- get_client_by_ws: first client whose websocket is this handle. -/
def get_client_by_ws (st : State) (w : Nat) : Option ClientConnection :=
  st.active_connections.find? (fun c => c.ws == w)

/-- get_client_by_id: clients_by_id.get, modelled over the synced heap list. -/
def get_client_by_id (st : State) (cid : String) : Option ClientConnection :=
  st.active_connections.find? (fun c => c.client_id == cid)

/-- models.py ChatPayload. -/
structure ChatPayload where
  type : MessageType
  source_id : Option String := none
  target_id : Option String := none
  source_display_name : Option String := none
  target_display_name : Option String := none
  source_lang : Option String := none
  target_lang : Option String := none
  original_text : Option String := none
  translated_text : Option String := none
  display_text : Option String := none
  time : String
  is_pi : Option Bool := none
deriving DecidableEq

/-- models.py HelloPayload. -/
structure HelloPayload where
  client_id : String
  preferred_lang : String
  display_name : String
  is_pi : Bool
  time : String
deriving DecidableEq

/-- build_display_text of connection_manager.py (labels are display names). -/
def build_display_text (role : DisplayRole) (source_label target_label : Option String)
    (text : String) : String :=
  if role == DisplayRole.incoming && opt_truthy source_label then
    "[from " ++ source_label.getD "" ++ "] " ++ text
  else if role == DisplayRole.outgoing && opt_truthy target_label then
    "[to " ++ target_label.getD "" ++ "] " ++ text
  else text

/-- Result of ConnectionManager.connect: either the websocket is closed with a
code and reason and no Session is created, or the state is extended and a
hello payload is sent to the new client. -/
inductive ConnectResult where
  | rejected (closeCode : Nat) (reason : String)
  | connected (st : State) (hello : HelloPayload)
deriving DecidableEq

/-- Registration body of connect: append the new client (preferred_lang "en",
display_name derived from the id), insert into the en language group, record
the Pi id when is_pi. The fresh uuid4 is a parameter nid. -/
def register_client (st : State) (w : Nat) (is_pi : Bool) (nid : String) : State :=
  let client : ClientConnection :=
    { ws := w, client_id := nid, preferred_lang := "en",
      display_name := "Client-" ++ py_take 8 nid }
  { active_connections := st.active_connections ++ [client],
    lang_groups := add_to_lang_group st.lang_groups "en" nid,
    pi_client_id := if is_pi then some nid else st.pi_client_id }

/-- ConnectionManager.connect of connection_manager.py: a second Pi is rejected
with close code 4000 before any registration. -/
def connect (st : State) (w : Nat) (is_pi : Bool) (nid : String) (now : String) : ConnectResult :=
  if is_pi && st.pi_client_id.isSome then
    .rejected 4000 "Pi already connected"
  else
    let st' := register_client st w is_pi nid
    .connected st'
      { client_id := nid, preferred_lang := "en",
        display_name := "Client-" ++ py_take 8 nid, is_pi := is_pi, time := now }

/-- ConnectionManager.disconnect. -/
def disconnect (st : State) (w : Nat) : State :=
  match get_client_by_ws st w with
  | none => st
  | some client =>
    { active_connections := st.active_connections.erase client,
      lang_groups := remove_from_all_lang_groups st.lang_groups client.client_id,
      pi_client_id :=
        if st.pi_client_id = some client.client_id then none else st.pi_client_id }

/-- Language normalization in update_client_lang: (new_lang or "").lower() or "en".
Only the empty string is falsy, so exactly the empty code coerces to en. -/
def normalize_lang (s : String) : String :=
  let l := py_lower s
  if l = "" then "en" else l

/-- Heap update: assignment client.preferred_lang = lang on the object with this id. -/
def set_client_lang (cs : List ClientConnection) (cid lang : String) : List ClientConnection :=
  cs.map (fun c => if c.client_id = cid then { c with preferred_lang := lang } else c)

/-- Heap update: assignment client.display_name = name on the object with this id. -/
def set_client_name (cs : List ClientConnection) (cid name : String) : List ClientConnection :=
  cs.map (fun c => if c.client_id = cid then { c with display_name := name } else c)

/-- ConnectionManager.update_client_lang of connection_manager.py. -/
def update_client_lang (st : State) (w : Nat) (new_lang : String)
    (display_name : Option String) : State :=
  match get_client_by_ws st w with
  | none => st
  | some client =>
    let norm := normalize_lang new_lang
    let st1 :=
      if client.preferred_lang ≠ norm then
        { st with
          active_connections := set_client_lang st.active_connections client.client_id norm,
          lang_groups :=
            add_to_lang_group (remove_from_all_lang_groups st.lang_groups client.client_id)
              norm client.client_id }
      else st
    match display_name with
    | some dn =>
      if dn ≠ "" ∧ dn ≠ client.display_name then
        { st1 with active_connections := set_client_name st1.active_connections client.client_id dn }
      else st1
    | none => st1

/-- source_lang_map of connection_manager.py (app-level code to DeepL source code). -/
def source_lang_map : List (String × String) :=
  [("en", "EN"), ("en-us", "EN"), ("en-gb", "EN"),
   ("es", "ES"), ("es-419", "ES"),
   ("pt", "PT"), ("pt-br", "PT"), ("pt-pt", "PT"),
   ("zh", "ZH"), ("zh-hans", "ZH"), ("zh-hant", "ZH"),
   ("ar", "AR"), ("bg", "BG"), ("cs", "CS"), ("da", "DA"), ("de", "DE"),
   ("el", "EL"), ("et", "ET"), ("fi", "FI"), ("fr", "FR"), ("he", "HE"),
   ("hu", "HU"), ("id", "ID"), ("it", "IT"), ("ja", "JA"), ("ko", "KO"),
   ("lt", "LT"), ("lv", "LV"), ("nb", "NB"), ("nl", "NL"), ("pl", "PL"),
   ("ro", "RO"), ("ru", "RU"), ("sk", "SK"), ("sl", "SL"), ("sv", "SV"),
   ("th", "TH"), ("tr", "TR"), ("uk", "UK"), ("vi", "VI")]

/-- target_lang_map of connection_manager.py (app-level code to DeepL target code). -/
def target_lang_map : List (String × String) :=
  [("en", "EN-US"), ("en-us", "EN-US"), ("en-gb", "EN-GB"),
   ("es", "ES"), ("es-419", "ES-419"),
   ("pt", "PT-PT"), ("pt-pt", "PT-PT"), ("pt-br", "PT-BR"),
   ("zh", "ZH-HANS"), ("zh-hans", "ZH-HANS"), ("zh-hant", "ZH-HANT"),
   ("ar", "AR"), ("bg", "BG"), ("cs", "CS"), ("da", "DA"), ("de", "DE"),
   ("el", "EL"), ("et", "ET"), ("fi", "FI"), ("fr", "FR"), ("he", "HE"),
   ("hu", "HU"), ("id", "ID"), ("it", "IT"), ("ja", "JA"), ("ko", "KO"),
   ("lt", "LT"), ("lv", "LV"), ("nb", "NB"), ("nl", "NL"), ("pl", "PL"),
   ("ro", "RO"), ("ru", "RU"), ("sk", "SK"), ("sl", "SL"), ("sv", "SV"),
   ("th", "TH"), ("tr", "TR"), ("uk", "UK"), ("vi", "VI")]

/-- Python dict.get over the mapping tables. -/
def lookup_assoc (k : String) : List (String × String) → Option String
  | [] => none
  | p :: ps => if p.1 = k then some p.2 else lookup_assoc k ps

/-- ConnectionManager._map_source_lang: lower-case, None for empty, dict hit
(a falsy hit falls through like a miss), else first two characters upper-cased. -/
def map_source_lang (lang : String) : Option String :=
  let norm := py_lower lang
  if norm = "" then none
  else
    match lookup_assoc norm source_lang_map with
    | some m => if m = "" then some (py_upper (py_take 2 norm)) else some m
    | none => some (py_upper (py_take 2 norm))

/-- ConnectionManager._map_target_lang: like the source mapping, except a
fallback of EN is redirected to EN-US (deprecated plain EN target). -/
def map_target_lang (lang : String) : Option String :=
  let norm := py_lower lang
  if norm = "" then none
  else
    match lookup_assoc norm target_lang_map with
    | some m =>
      if m = "" then
        let fb := py_upper (py_take 2 norm)
        if fb = "EN" then some "EN-US" else some fb
      else some m
    | none =>
      let fb := py_upper (py_take 2 norm)
      if fb = "EN" then some "EN-US" else some fb

/-- DeepL translate_text call: oracle of (text, source code or auto-detect,
target code); none models a raised exception. -/
abbrev DeeplApi : Type := String → Option String → Option String → Option String

/-- ConnectionManager.translate_text. avail models whether the DEEPL_API_KEY
was set (self.translator not None). Note the source checks the missing
translator before the same-base-language comparison. -/
def translate_text (avail : Bool) (api : DeeplApi) (text target_lang source_lang : String) :
    String :=
  if text = "" then text
  else if !avail then "[" ++ target_lang ++ " untranslated] " ++ text
  else
    let ds := map_source_lang source_lang
    let dt := map_target_lang target_lang
    if opt_truthy ds && opt_truthy dt && (py_take 2 (ds.getD "") == py_take 2 (dt.getD "")) then
      text
    else
      match (if opt_truthy ds then api text ds dt else api text none dt) with
      | some result => result
      | none => "[" ++ py_str_opt dt ++ " untranslated] " ++ text

/-- Payload sent on a websocket, addressed by the owning client id. -/
abbrev Delivery : Type := String × ChatPayload

/-- ConnectionManager.send_personal_message_by_id: sends to the target when it
resolves, and independently echoes to the source client when the source id
resolves; performs no translation itself. -/
def send_personal_message_by_id (st : State) (original_text translated_text : String)
    (source_client_id : Option String) (target_client_id : String)
    (source_lang target_lang : Option String) (message_type : MessageType)
    (now : String) : List Delivery :=
  let target := get_client_by_id st target_client_id
  let source_client := match source_client_id with
    | some sid => if sid = "" then none else get_client_by_id st sid
    | none => none
  let target_part : List Delivery := match target with
    | some t =>
      let incoming_label : Option String := match source_client with
        | some sc => some sc.display_name
        | none => source_client_id
      [(t.client_id,
        { type := message_type,
          source_id := source_client_id,
          target_id := some target_client_id,
          source_lang := source_lang,
          target_lang := target_lang,
          source_display_name := incoming_label,
          target_display_name := some t.display_name,
          original_text := some original_text,
          translated_text := some translated_text,
          display_text :=
            some (build_display_text .incoming incoming_label (some t.display_name)
              translated_text),
          time := now })]
    | none => []
  let source_part : List Delivery := match source_client with
    | some s =>
      let target_label : Option String := match target with
        | some t => some t.display_name
        | none => some target_client_id
      [(s.client_id,
        { type := message_type,
          source_id := source_client_id,
          target_id := some target_client_id,
          source_lang := source_lang,
          target_lang := target_lang,
          source_display_name := some s.display_name,
          target_display_name := target_label,
          original_text := some original_text,
          translated_text := some translated_text,
          display_text :=
            some (build_display_text .outgoing (some s.display_name) target_label
              translated_text),
          time := now })]
    | none => []
  target_part ++ source_part

/-- ConnectionManager.send_personal_message_from_ws: resolves sender and target,
drops entirely when either is unknown, translates, and defers to
send_personal_message_by_id with type PERSONAL_CHAT. -/
def send_personal_message_from_ws (avail : Bool) (api : DeeplApi) (st : State) (w : Nat)
    (target_client_id text now : String) : List Delivery :=
  match get_client_by_ws st w with
  | none => []
  | some source_client =>
    match get_client_by_id st target_client_id with
    | none => []
    | some target_client =>
      let translated :=
        translate_text avail api text target_client.preferred_lang source_client.preferred_lang
      send_personal_message_by_id st text translated (some source_client.client_id)
        target_client_id (some source_client.preferred_lang)
        (some target_client.preferred_lang) .personal_chat now

/-- ConnectionManager.send_message_to_pi_from_ws: headset text to the Pi.
The call names MessageType.HEADSET_TO_PI, a member models.py does not declare,
so reaching the send raises AttributeError (the error branch). -/
def send_message_to_pi_from_ws (avail : Bool) (api : DeeplApi) (st : State) (w : Nat)
    (text now : String) : Except String (List Delivery) :=
  match st.pi_client_id with
  | none => .ok []
  | some pid =>
    match get_client_by_ws st w with
    | none => .ok []
    | some source_client =>
      match get_client_by_id st pid with
      | none => .ok []
      | some pi_client =>
        let translated :=
          translate_text avail api text pi_client.preferred_lang source_client.preferred_lang
        match MessageType.attr "HEADSET_TO_PI" with
        | none => .error "AttributeError: MessageType has no member HEADSET_TO_PI"
        | some mt =>
          .ok (send_personal_message_by_id st text translated (some source_client.client_id)
            pi_client.client_id (some source_client.preferred_lang)
            (some pi_client.preferred_lang) mt now)

/-- Whisper transcription oracle: (audio_b64, sample_rate, language) to text. -/
abbrev AsrApi : Type := String → Nat → String → String

/-- Python expression language_hint or source_client.preferred_lang. -/
def resolve_hint (hint : Option String) (srcLang : String) : String :=
  match hint with
  | some h => if h = "" then srcLang else h
  | none => srcLang

/-- ConnectionManager.handle_headset_audio_from_ws: drop when no Pi, resolve the
source, transcribe, strip, drop an empty transcript, else forward to the Pi. -/
def handle_headset_audio_from_ws (avail : Bool) (api : DeeplApi) (asr : AsrApi) (st : State)
    (w : Nat) (audio_b64 : String) (sample_rate : Nat) (language_hint : Option String)
    (now : String) : Except String (List Delivery) :=
  match st.pi_client_id with
  | none => .ok []
  | some _ =>
    match get_client_by_ws st w with
    | none => .ok []
    | some source_client =>
      let recognized :=
        py_strip (asr audio_b64 sample_rate (resolve_hint language_hint source_client.preferred_lang))
      if recognized = "" then .ok []
      else send_message_to_pi_from_ws avail api st w recognized now

/-- ConnectionManager.broadcast_chat_from_ws: translate per receiver and deliver
to every client except the sender (identity test modelled as id equality). -/
def broadcast_chat_from_ws (avail : Bool) (api : DeeplApi) (st : State) (w : Nat)
    (text now : String) : List Delivery :=
  match get_client_by_ws st w with
  | none => []
  | some source_client =>
    (st.active_connections.filter (fun c => !(c.client_id == source_client.client_id))).map
      (fun c =>
        let translated := translate_text avail api text c.preferred_lang source_client.preferred_lang
        (c.client_id,
          { type := .chat,
            source_id := some source_client.client_id,
            target_id := some c.client_id,
            source_lang := some source_client.preferred_lang,
            target_lang := some c.preferred_lang,
            source_display_name := some source_client.display_name,
            target_display_name := some c.display_name,
            original_text := some text,
            translated_text := some translated,
            display_text :=
              some (build_display_text .incoming (some source_client.display_name)
                (some c.display_name) translated),
            time := now }))

end ConnMgr

namespace MainPy

/-- main.py ClientConnection (no display name). -/
structure ClientConnection where
  ws : Nat
  client_id : String
  preferred_lang : String
deriving DecidableEq

/-- main.py ConnectionManager state. -/
structure State where
  active_connections : List ClientConnection
  lang_groups : List (String × List String)
  pi_client_id : Option String
deriving DecidableEq

/-- main.py get_client_by_ws. -/
def get_client_by_ws (st : State) (w : Nat) : Option ClientConnection :=
  st.active_connections.find? (fun c => c.ws == w)

/-- main.py get_client_by_id over the synced heap list. -/
def get_client_by_id (st : State) (cid : String) : Option ClientConnection :=
  st.active_connections.find? (fun c => c.client_id == cid)

/-- main.py ConnectionManager.connect: always accepts and registers; when
is_pi it overwrites pi_client_id with the new client id, with no check for an
already-registered Pi. -/
def connect (st : State) (w : Nat) (is_pi : Bool) (nid : String) : State :=
  { active_connections := st.active_connections ++ [⟨w, nid, "en"⟩],
    lang_groups := add_to_lang_group st.lang_groups "en" nid,
    pi_client_id := if is_pi then some nid else st.pi_client_id }

/-- main.py update_client_lang: no normalization at all; moves groups only when
the raw code differs from the current one. -/
def update_client_lang (st : State) (w : Nat) (new_lang : String) : State :=
  match get_client_by_ws st w with
  | none => st
  | some client =>
    if client.preferred_lang ≠ new_lang then
      { st with
        active_connections :=
          st.active_connections.map
            (fun c => if c.client_id = client.client_id then { c with preferred_lang := new_lang } else c),
        lang_groups :=
          add_to_lang_group (remove_from_all_lang_groups st.lang_groups client.client_id)
            new_lang client.client_id }
    else st

/-- main.py build_display_text: labels are raw ids (truthiness on the id). -/
def build_display_text (role : String) (source_id target_id : Option String)
    (text : String) : String :=
  if role == "incoming" && opt_truthy source_id then
    "[from " ++ source_id.getD "" ++ "] " ++ text
  else if role == "outgoing" && opt_truthy target_id then
    "[to " ++ target_id.getD "" ++ "] " ++ text
  else text

/-- Payload dict built by main.py (type is the literal string chat). -/
structure Payload where
  type : String
  source_id : Option String
  target_id : Option String
  source_lang : Option String
  target_lang : Option String
  original_text : String
  translated_text : String
  display_text : String
  time : String
deriving DecidableEq

/-- Payload sent on a websocket, addressed by the owning client id. -/
abbrev Delivery : Type := String × Payload

/-- main.py send_personal_message_by_id: the target (when resolved) gets an
incoming payload; the source client (when its id is truthy and resolves) gets
an outgoing echo, even when the target was not found. -/
def send_personal_message_by_id (st : State) (original_text translated_text : String)
    (source_client_id : Option String) (target_client_id : Option String)
    (source_lang target_lang : Option String) (now : String) : List Delivery :=
  let target := match target_client_id with
    | some tid => get_client_by_id st tid
    | none => none
  let source_client := match source_client_id with
    | some sid => if sid = "" then none else get_client_by_id st sid
    | none => none
  let target_part : List Delivery := match target with
    | some t =>
      [(t.client_id,
        { type := "chat",
          source_id := source_client_id,
          target_id := target_client_id,
          source_lang := source_lang,
          target_lang := target_lang,
          original_text := original_text,
          translated_text := translated_text,
          display_text := build_display_text "incoming" source_client_id target_client_id translated_text,
          time := now })]
    | none => []
  let source_part : List Delivery := match source_client with
    | some s =>
      [(s.client_id,
        { type := "chat",
          source_id := source_client_id,
          target_id := target_client_id,
          source_lang := source_lang,
          target_lang := target_lang,
          original_text := original_text,
          translated_text := translated_text,
          display_text := build_display_text "outgoing" source_client_id target_client_id translated_text,
          time := now })]
    | none => []
  target_part ++ source_part

/-- personal_chat branch of websocket_endpoint in main.py: no translation, and
the sender identity is taken from the message field from_client_id; the
websocket the message arrived on (w) is not consulted. -/
def handle_personal_chat (st : State) (w : Nat) (text : String)
    (from_client_id to_client_id : Option String) (now : String) : List Delivery :=
  send_personal_message_by_id st text text from_client_id to_client_id none none now

/-- set_lang acknowledgement dict built by websocket_endpoint in main.py. -/
structure SetLangMsg where
  type : String
  text : String
  lang : String
  client_id : Option String
  time : String
deriving DecidableEq

/-- set_lang branch of websocket_endpoint in main.py: update the language, then
acknowledge to the originating connection with the raw submitted code. -/
def handle_set_lang (st : State) (w : Nat) (new_lang : String) (now : String) :
    State × SetLangMsg :=
  let st1 := update_client_lang st w new_lang
  let client := get_client_by_ws st1 w
  (st1,
    { type := "set_lang",
      text := "Language set to " ++ new_lang,
      lang := new_lang,
      client_id := client.map (fun c => c.client_id),
      time := now })

/-- main.py broadcast_chat_from_ws: no translation, sends the raw text to every
client other than the sender (identity test modelled as id equality). -/
def broadcast_chat_from_ws (st : State) (w : Nat) (text now : String) : List Delivery :=
  let source_client := get_client_by_ws st w
  let source_id := source_client.map (fun c => c.client_id)
  st.active_connections.filterMap (fun c =>
    if source_client = some c then none
    else
      some (c.client_id,
        { type := "chat",
          source_id := source_id,
          target_id := some c.client_id,
          source_lang := none,
          target_lang := none,
          original_text := text,
          translated_text := text,
          display_text := build_display_text "incoming" source_id (some c.client_id) text,
          time := now }))

end MainPy

namespace ConnMgr

/-- One registry-mutating operation of the manager, as driven by the websocket
endpoint: register (connect), unregister (disconnect), set_lang
(update_client_lang). The uuid4 drawn inside connect is the nid parameter. -/
inductive Op where
  | connect (w : Nat) (is_pi : Bool) (nid : String)
  | disconnect (w : Nat)
  | set_lang (w : Nat) (lang : String) (name : Option String)
deriving DecidableEq

/-- Effect of one operation on the registry state (a rejected Pi connect leaves
the state untouched). -/
def step (st : State) : Op → State
  | .connect w is_pi nid =>
    (match connect st w is_pi nid "" with
     | .rejected _ _ => st
     | .connected st1 _ => st1)
  | .disconnect w => disconnect st w
  | .set_lang w lang name => update_client_lang st w lang name

/-- Run a sequence of operations. -/
def run (st : State) : List Op → State
  | [] => st
  | op :: ops => run (step st op) ops

/-- Freshness guard: a connect must draw a uuid4 that is not currently live
(uuid4 ids never collide); other operations are unconstrained. -/
def connect_fresh (st : State) : Op → Bool
  | .connect _ _ nid => !((st.active_connections.map (fun c => c.client_id)).contains nid)
  | _ => true

/-- Freshness of the uuid4 ids drawn by connect along a run. -/
def admissible (st : State) : List Op → Bool
  | [] => true
  | op :: ops => connect_fresh st op && admissible (step st op) ops

/-- State of a freshly constructed ConnectionManager. -/
def init_state : State :=
  { active_connections := [], lang_groups := [], pi_client_id := none }

/-- Language-directory consistency: every live client appears in exactly one
language group, and any group it appears in is keyed by its current
preferred_lang. -/
def lang_directory_consistent (st : State) : Bool :=
  st.active_connections.all (fun c =>
    (st.lang_groups.countP (fun p => p.2.contains c.client_id) == 1) &&
    st.lang_groups.all (fun p => !(p.2.contains c.client_id) || (p.1 == c.preferred_lang)))

/-- Inductive invariant of the registry: ids are unique, group keys are unique
(dict), groups are duplicate-free, every group member is a live client whose
preferred_lang is the group key, and every live client is in the group of its
preferred_lang. -/
structure Inv (st : State) : Prop where
  nodup_ids : (st.active_connections.map (fun c => c.client_id)).Nodup
  nodup_keys : (st.lang_groups.map Prod.fst).Nodup
  groups_nodup : ∀ p ∈ st.lang_groups, p.2.Nodup
  mem_sound : ∀ p ∈ st.lang_groups, ∀ x ∈ p.2,
    ∃ c ∈ st.active_connections, c.client_id = x ∧ c.preferred_lang = p.1
  complete : ∀ c ∈ st.active_connections,
    ∃ p ∈ st.lang_groups, p.1 = c.preferred_lang ∧ c.client_id ∈ p.2

end ConnMgr

/-- Example connection_manager.py state: one ordinary client. -/
def cmStA : ConnMgr.State :=
  { active_connections := [⟨1, "A", "en", "Alice"⟩],
    lang_groups := [("en", ["A"])],
    pi_client_id := none }

/-- Example connection_manager.py state: a registered Pi client P. -/
def cmStWithPi : ConnMgr.State :=
  { active_connections := [⟨1, "P", "en", "Pi"⟩],
    lang_groups := [("en", ["P"])],
    pi_client_id := some "P" }

/-- Example connection_manager.py state: a headset client and the Pi. -/
def cmStHeadset : ConnMgr.State :=
  { active_connections := [⟨1, "H", "en", "Headset"⟩, ⟨2, "P", "es", "Pi"⟩],
    lang_groups := [("en", ["H"]), ("es", ["P"])],
    pi_client_id := some "P" }

/-- Example connection_manager.py state: sender A (en) and receivers B (en),
C (es). -/
def cmStBroadcast : ConnMgr.State :=
  { active_connections := [⟨1, "A", "en", "Ann"⟩, ⟨2, "B", "en", "Ben"⟩, ⟨3, "C", "es", "Cam"⟩],
    lang_groups := [("en", ["A", "B"]), ("es", ["C"])],
    pi_client_id := none }

/-- Example connection_manager.py state: Alice (en) and Bob (es). -/
def cmStPersonal : ConnMgr.State :=
  { active_connections := [⟨1, "A", "en", "Alice"⟩, ⟨2, "B", "es", "Bob"⟩],
    lang_groups := [("en", ["A"]), ("es", ["B"])],
    pi_client_id := none }

/-- Example main.py client. -/
def clientA : MainPy.ClientConnection := ⟨1, "A", "en"⟩

/-- Example main.py state: one ordinary client. -/
def mainStA : MainPy.State :=
  { active_connections := [clientA],
    lang_groups := [("en", ["A"])],
    pi_client_id := none }

/-- Example main.py state: a registered Pi client P. -/
def mainStWithPi : MainPy.State :=
  { active_connections := [⟨1, "P", "en"⟩],
    lang_groups := [("en", ["P"])],
    pi_client_id := some "P" }

/-- Example main.py state: sender A (en) and receivers B (en), C (es). -/
def mainStBroadcast : MainPy.State :=
  { active_connections := [⟨1, "A", "en"⟩, ⟨2, "B", "en"⟩, ⟨3, "C", "es"⟩],
    lang_groups := [("en", ["A", "B"]), ("es", ["C"])],
    pi_client_id := none }

/-- Python str.lower of a non-empty string is non-empty (lower maps characters
one for one), and conversely. -/
theorem py_lower_eq_empty_iff (s : String) : py_lower s = "" ↔ s = "" := by
  cases s with
  | mk l =>
    have hempty : ("" : String) = String.mk [] := rfl
    constructor
    · intro h
      rw [hempty] at h ⊢
      have : l.map Char.toLower = [] := by
        have := congrArg String.data h
        simpa [py_lower] using this
      simp [List.map_eq_nil] at this
      simp [this]
    · intro h
      rw [hempty] at h
      have : l = [] := by
        have := congrArg String.data h
        simpa using this
      simp [py_lower, this, hempty]

/-- C1 (counterexample): in main.py, ConnectionManager.connect performs no
single-relay check. From a state whose relay is P, a second connect with the
relay role hint registers a new Session Q and overwrites pi_client_id with Q,
so the attempt is not rejected and the relay identity changes. -/
theorem c1_counterexample :
    (MainPy.connect mainStWithPi 2 true "Q").pi_client_id = some "Q" ∧
    (MainPy.connect mainStWithPi 2 true "Q").pi_client_id ≠ some "P" ∧
    (MainPy.connect mainStWithPi 2 true "Q").active_connections =
      [⟨1, "P", "en"⟩, ⟨2, "Q", "en"⟩] := by
  refine ⟨rfl, by decide, rfl⟩

/-- C1 (amended): in connection_manager.py, whenever a relay Session is already
registered, ConnectionManager.connect with the relay hint rejects the attempt
with close code 4000: no Session is created, the state (and hence the relay
identity) is untouched. main.py's connect lacks this check. -/
theorem c1_relay_rejected (st : ConnMgr.State) (w : Nat) (nid now p : String)
    (h : st.pi_client_id = some p) :
    ConnMgr.connect st w true nid now = .rejected 4000 "Pi already connected" ∧
    ConnMgr.step st (.connect w true nid) = st := by
  constructor
  · simp [ConnMgr.connect, h]
  · simp [ConnMgr.step, ConnMgr.connect, h]

/-- C1 (witness). -/
theorem c1_witness :
    ConnMgr.connect cmStWithPi 2 true "Q" "t" = .rejected 4000 "Pi already connected" ∧
    ConnMgr.step cmStWithPi (.connect 2 true "Q") = cmStWithPi :=
  c1_relay_rejected cmStWithPi 2 "Q" "t" "P" rfl

/-- C9 (counterexample): the unlisted code en-ca does not fall back to its
first two characters upper-cased in the target mapping: the EN fallback is
redirected to EN-US. -/
theorem c9_counterexample :
    ConnMgr.lookup_assoc (py_lower "en-ca") ConnMgr.target_lang_map = none ∧
    py_upper (py_take 2 (py_lower "en-ca")) = "EN" ∧
    ConnMgr.map_target_lang "en-ca" = some "EN-US" ∧
    ConnMgr.map_target_lang "en-ca" ≠ some (py_upper (py_take 2 (py_lower "en-ca"))) := by
  refine ⟨by decide, by decide, by decide, by decide⟩

/-- C9 (amended): for every non-empty input string both language mappings are
total and deterministic pure functions returning some code; an unlisted code
falls back to its first two characters upper-cased, except that a target
fallback of EN is redirected to EN-US. -/
theorem c9_lang_maps_total (s : String) (h : s ≠ "") :
    (ConnMgr.map_source_lang s).isSome ∧
    (ConnMgr.map_target_lang s).isSome ∧
    (ConnMgr.lookup_assoc (py_lower s) ConnMgr.source_lang_map = none →
      ConnMgr.map_source_lang s = some (py_upper (py_take 2 (py_lower s)))) ∧
    (ConnMgr.lookup_assoc (py_lower s) ConnMgr.target_lang_map = none →
      ConnMgr.map_target_lang s =
        some (if py_upper (py_take 2 (py_lower s)) = "EN" then "EN-US"
              else py_upper (py_take 2 (py_lower s)))) := by
  have hl : ¬ py_lower s = "" := fun hc => h ((py_lower_eq_empty_iff s).mp hc)
  refine ⟨?_, ?_, ?_, ?_⟩
  · unfold ConnMgr.map_source_lang
    simp only [hl, if_false]
    rcases hx : ConnMgr.lookup_assoc (py_lower s) ConnMgr.source_lang_map with _ | m
    · simp [hx]
    · by_cases hm : m = "" <;> simp [hx, hm]
  · unfold ConnMgr.map_target_lang
    simp only [hl, if_false]
    rcases hx : ConnMgr.lookup_assoc (py_lower s) ConnMgr.target_lang_map with _ | m
    · simp only [hx]
      by_cases he : py_upper (py_take 2 (py_lower s)) = "EN" <;> simp [he]
    · by_cases hm : m = ""
      · simp only [hx, hm, if_pos rfl]
        by_cases he : py_upper (py_take 2 (py_lower s)) = "EN" <;> simp [he]
      · simp [hx, hm]
  · intro hx
    unfold ConnMgr.map_source_lang
    simp only [hl, if_false, hx]
  · intro hx
    unfold ConnMgr.map_target_lang
    simp only [hl, if_false, hx]
    split <;> simp_all

/-- C9 (witness). -/
theorem c9_witness :
    (ConnMgr.map_source_lang "fr-CA").isSome ∧
    (ConnMgr.map_target_lang "fr-CA").isSome ∧
    (ConnMgr.lookup_assoc (py_lower "fr-CA") ConnMgr.source_lang_map = none →
      ConnMgr.map_source_lang "fr-CA" = some (py_upper (py_take 2 (py_lower "fr-CA")))) ∧
    (ConnMgr.lookup_assoc (py_lower "fr-CA") ConnMgr.target_lang_map = none →
      ConnMgr.map_target_lang "fr-CA" =
        some (if py_upper (py_take 2 (py_lower "fr-CA")) = "EN" then "EN-US"
              else py_upper (py_take 2 (py_lower "fr-CA")))) :=
  c9_lang_maps_total "fr-CA" (by decide)

/-- C6 (counterexample): a whitespace-only code is truthy in Python, so it is
not coerced to en by update_client_lang; and the set_lang acknowledgement in
main.py echoes the submitted code verbatim (ES), not the normalized form (es)
that connection_manager.py would compute. -/
theorem c6_counterexample :
    ConnMgr.normalize_lang " " = " " ∧
    " " ≠ "en" ∧
    (MainPy.handle_set_lang mainStA 1 "ES" "t").2.lang = "ES" ∧
    ConnMgr.normalize_lang "ES" = "es" ∧
    "ES" ≠ "es" := by
  refine ⟨by decide, by decide, rfl, by decide, by decide⟩

/-- C6 (amended): update_client_lang lower-cases the raw code and coerces only
the empty code to en (whitespace-only codes are kept as-is); when the
normalized code equals the current one the state (group membership included)
is unchanged; and the set_lang acknowledgement built in main.py carries the
submitted code verbatim (main.py's own update_client_lang performs no
normalization, so that is the code it resolved). -/
theorem c6_set_lang_normalization :
    (ConnMgr.normalize_lang "" = "en") ∧
    (∀ s, s ≠ "" → ConnMgr.normalize_lang s = py_lower s) ∧
    (∀ st w s c, ConnMgr.get_client_by_ws st w = some c →
      ConnMgr.normalize_lang s = c.preferred_lang →
      ConnMgr.update_client_lang st w s none = st) ∧
    (∀ st w s now, (MainPy.handle_set_lang st w s now).2.lang = s) := by
  refine ⟨rfl, ?_, ?_, ?_⟩
  · intro s hs
    have hl : ¬ py_lower s = "" := fun hc => hs ((py_lower_eq_empty_iff s).mp hc)
    simp [ConnMgr.normalize_lang, hl]
  · intro st w s c hfind hnorm
    simp [ConnMgr.update_client_lang, hfind, hnorm]
  · intro st w s now
    rfl

/-- C6 (witness). -/
theorem c6_witness :
    (ConnMgr.normalize_lang "fr-CA" = py_lower "fr-CA") ∧
    ConnMgr.update_client_lang cmStA 1 "EN" none = cmStA :=
  ⟨c6_set_lang_normalization.2.1 "fr-CA" (by decide),
   c6_set_lang_normalization.2.2.1 cmStA 1 "EN" ⟨1, "A", "en", "Alice"⟩ rfl (by decide)⟩

/-- C7 (code evaluation at the failing input): models.py declares no
HEADSET_TO_PI member on MessageType, so with a relay registered and a
non-empty transcript the forwarding path raises AttributeError instead of
delivering payloads tagged with a distinct headset subtype. -/
theorem c7_headset_forward_missing_member :
    ConnMgr.MessageType.attr "HEADSET_TO_PI" = none ∧
    ConnMgr.send_message_to_pi_from_ws false (fun _ _ _ => none) cmStHeadset 1 "hello" "t" =
      .error "AttributeError: MessageType has no member HEADSET_TO_PI" ∧
    ConnMgr.handle_headset_audio_from_ws false (fun _ _ _ => none) (fun _ _ _ => "hello")
      cmStHeadset 1 "QUJD" 16000 none "t" =
      .error "AttributeError: MessageType has no member HEADSET_TO_PI" := by
  refine ⟨rfl, rfl, rfl⟩

/-- C3 (counterexample): a personal_chat naming an unknown target id zzz from
live client A produces an outbound payload after all: the outgoing echo to the
sender (send_personal_message_by_id sends the echo independently of whether
the target resolved). -/
theorem c3_counterexample :
    MainPy.handle_personal_chat mainStA 1 "hi" (some "A") (some "zzz") "t" =
      [("A", { type := "chat", source_id := some "A", target_id := some "zzz",
               source_lang := none, target_lang := none, original_text := "hi",
               translated_text := "hi", display_text := "[to zzz] hi", time := "t" })] ∧
    MainPy.handle_personal_chat mainStA 1 "hi" (some "A") (some "zzz") "t" ≠ [] := by
  refine ⟨rfl, by decide⟩

/-- C3 (amended): when the targetId does not resolve to a live Session, no
payload is delivered to the target, and connection_manager.py's
send_personal_message_from_ws drops the operation entirely (no payload to
anyone); but the low-level send_personal_message_by_id, which the main.py
websocket personal_chat handler calls, still sends the outgoing echo to the
sender whenever the source id resolves to a live Session. -/
theorem c3_unknown_target (st : ConnMgr.State) (tid : String)
    (h : ConnMgr.get_client_by_id st tid = none) :
    (∀ avail api w text now,
      ConnMgr.send_personal_message_from_ws avail api st w tid text now = []) ∧
    (∀ o tr sid s sl tl mt now, sid ≠ "" → ConnMgr.get_client_by_id st sid = some s →
      ConnMgr.send_personal_message_by_id st o tr (some sid) tid sl tl mt now =
        [(s.client_id,
          { type := mt, source_id := some sid, target_id := some tid,
            source_lang := sl, target_lang := tl,
            source_display_name := some s.display_name,
            target_display_name := some tid,
            original_text := some o, translated_text := some tr,
            display_text :=
              some (ConnMgr.build_display_text .outgoing (some s.display_name) (some tid) tr),
            time := now })]) := by
  constructor
  · intro avail api w text now
    unfold ConnMgr.send_personal_message_from_ws
    rcases hw : ConnMgr.get_client_by_ws st w with _ | src
    · rfl
    · simp only [h]
  · intro o tr sid s sl tl mt now hsid hs
    unfold ConnMgr.send_personal_message_by_id
    simp only [h, hsid, hs, if_neg hsid]
    rfl

/-- C3 (witness). -/
theorem c3_witness :
    (∀ avail api w text now,
      ConnMgr.send_personal_message_from_ws avail api cmStA w "zzz" text now = []) ∧
    (∀ o tr sl tl mt now,
      ConnMgr.send_personal_message_by_id cmStA o tr (some "A") "zzz" sl tl mt now =
        [("A",
          { type := mt, source_id := some "A", target_id := some "zzz",
            source_lang := sl, target_lang := tl,
            source_display_name := some "Alice",
            target_display_name := some "zzz",
            original_text := some o, translated_text := some tr,
            display_text :=
              some (ConnMgr.build_display_text .outgoing (some "Alice") (some "zzz") tr),
            time := now })]) := by
  have h := c3_unknown_target cmStA "zzz" rfl
  exact ⟨h.1, fun o tr sl tl mt now =>
    h.2 o tr "A" ⟨1, "A", "en", "Alice"⟩ sl tl mt now (by decide) rfl⟩

/-- C4 (counterexample): broadcasting hi from A (en) to B (en) and C (es) when
the translator is unconfigured delivers the marker-wrapped text to the en
receiver B as well (connection_manager.py checks the missing translator before
the same-base-language comparison); and main.py's broadcast delivers the raw
untranslated text to the es receiver with no translation and no marker. -/
theorem c4_counterexample :
    ((ConnMgr.broadcast_chat_from_ws false (fun _ _ _ => none) cmStBroadcast 1 "hi" "t").map
        (fun d => (d.1, d.2.translated_text))) =
      [("B", some "[en untranslated] hi"), ("C", some "[es untranslated] hi")] ∧
    some "[en untranslated] hi" ≠ (some "hi" : Option String) ∧
    ((MainPy.broadcast_chat_from_ws mainStBroadcast 1 "hi" "t").map
        (fun d => (d.1, d.2.translated_text))) =
      [("B", "hi"), ("C", "hi")] := by
  refine ⟨rfl, by decide, rfl⟩

/-- C4 (amended): with the translator configured, broadcasting hi from A (en)
in connection_manager.py delivers to the en receiver B the original text
untranslated (the same-base-language check precedes the API call), delivers to
the es receiver C the API translation or, when the API call raises, the
original text wrapped with the untranslated marker, and delivers nothing to
the sender A. When the translator is unconfigured every receiver instead gets
the marker-wrapped text (counterexample above). -/
theorem c4_broadcast_translation (api : ConnMgr.DeeplApi) :
    ((ConnMgr.broadcast_chat_from_ws true api cmStBroadcast 1 "hi" "t").map
        (fun d => (d.1, d.2.translated_text))) =
      [("B", some "hi"),
       ("C", some (match api "hi" (some "EN") (some "ES") with
                   | some result => result
                   | none => "[ES untranslated] hi"))] ∧
    ((ConnMgr.broadcast_chat_from_ws true api cmStBroadcast 1 "hi" "t").map
        (fun d => d.1)).all (fun r => !(r == "A")) = true := by
  exact ⟨rfl, rfl⟩

/-- C5: a personal_chat through connection_manager.py from live Alice (en) to
live Bob (es) produces exactly two payloads: Bob receives display_text
"[from Alice] " followed by the translated text, Alice receives the echo with
display_text "[to Bob] " followed by the same translated text, and the two
payloads carry identical original_text, translated_text, source_lang and
target_lang fields (here tr abbreviates the translation collaborator result,
for any translator availability and any API behavior). -/
theorem c5_personal_chat_payloads (avail : Bool) (api : ConnMgr.DeeplApi) :
    ConnMgr.send_personal_message_from_ws avail api cmStPersonal 1 "B" "good morning" "t" =
      (let tr := ConnMgr.translate_text avail api "good morning" "es" "en"
       [("B", { type := .personal_chat, source_id := some "A", target_id := some "B",
                source_display_name := some "Alice", target_display_name := some "Bob",
                source_lang := some "en", target_lang := some "es",
                original_text := some "good morning", translated_text := some tr,
                display_text := some ("[from Alice] " ++ tr), time := "t" }),
        ("A", { type := .personal_chat, source_id := some "A", target_id := some "B",
                source_display_name := some "Alice", target_display_name := some "Bob",
                source_lang := some "en", target_lang := some "es",
                original_text := some "good morning", translated_text := some tr,
                display_text := some ("[to Bob] " ++ tr), time := "t" })]) := by
  rfl

/-- C8: handle_headset_audio_from_ws produces zero outbound payloads and raises
no exception both when no relay (Pi) Session is registered and when the
recognized transcript strips to the empty string, for every translator, ASR
behavior and input. -/
theorem c8_headset_audio_drop (avail : Bool) (api : ConnMgr.DeeplApi) (asr : ConnMgr.AsrApi)
    (st : ConnMgr.State) (w : Nat) (audio : String) (rate : Nat) (hint : Option String)
    (now : String) :
    (st.pi_client_id = none →
      ConnMgr.handle_headset_audio_from_ws avail api asr st w audio rate hint now = .ok []) ∧
    (∀ src, ConnMgr.get_client_by_ws st w = some src →
      py_strip (asr audio rate (ConnMgr.resolve_hint hint src.preferred_lang)) = "" →
      ConnMgr.handle_headset_audio_from_ws avail api asr st w audio rate hint now = .ok []) := by
  constructor
  · intro h
    simp [ConnMgr.handle_headset_audio_from_ws, h]
  · intro src hsrc hstrip
    cases hpi : st.pi_client_id with
    | none => simp [ConnMgr.handle_headset_audio_from_ws, hpi]
    | some p => simp [ConnMgr.handle_headset_audio_from_ws, hpi, hsrc, hstrip]

/-- C8 (witness). -/
theorem c8_witness :
    ConnMgr.handle_headset_audio_from_ws true (fun _ _ _ => none) (fun _ _ _ => "text")
      cmStA 1 "a" 16000 none "t" = .ok [] ∧
    ConnMgr.handle_headset_audio_from_ws true (fun _ _ _ => none) (fun _ _ _ => "   ")
      cmStHeadset 1 "a" 16000 none "t" = .ok [] :=
  ⟨(c8_headset_audio_drop true (fun _ _ _ => none) (fun _ _ _ => "text")
      cmStA 1 "a" 16000 none "t").1 rfl,
   (c8_headset_audio_drop true (fun _ _ _ => none) (fun _ _ _ => "   ")
      cmStHeadset 1 "a" 16000 none "t").2 ⟨1, "H", "en", "Headset"⟩ rfl (by decide)⟩

/-- C10: in the main.py websocket personal_chat handler the delivered payloads
are a function of the message fields only, never of the websocket the message
arrived on; consequently any connection can have the outgoing echo delivered
to any live Session S by naming S's id in from_client_id. -/
theorem c10_sender_spoofing :
    (∀ st w1 w2 text f t now,
      MainPy.handle_personal_chat st w1 text f t now =
        MainPy.handle_personal_chat st w2 text f t now) ∧
    (∀ st w sid S tid text now, sid ≠ "" → tid ≠ "" →
      MainPy.get_client_by_id st sid = some S →
      ∃ p ∈ MainPy.handle_personal_chat st w text (some sid) (some tid) now,
        p.1 = S.client_id ∧ p.2.display_text = "[to " ++ tid ++ "] " ++ text) := by
  constructor
  · intro st w1 w2 text f t now
    rfl
  · intro st w sid S tid text now hsid htid hS
    refine ⟨(S.client_id,
      { type := "chat", source_id := some sid, target_id := some tid,
        source_lang := none, target_lang := none, original_text := text,
        translated_text := text,
        display_text := MainPy.build_display_text "outgoing" (some sid) (some tid) text,
        time := now }), ?_, rfl, ?_⟩
    · unfold MainPy.handle_personal_chat MainPy.send_personal_message_by_id
      simp only [hS, if_neg hsid]
      exact List.mem_append_right _ (by simp)
    · simp [MainPy.build_display_text, opt_truthy, htid]

/-- C10 (witness). -/
theorem c10_witness :
    (MainPy.handle_personal_chat mainStA 7 "x" (some "A") (some "B") "t" =
      MainPy.handle_personal_chat mainStA 8 "x" (some "A") (some "B") "t") ∧
    (∃ p ∈ MainPy.handle_personal_chat mainStA 9 "x" (some "A") (some "zzz") "t",
      p.1 = clientA.client_id ∧ p.2.display_text = "[to " ++ "zzz" ++ "] " ++ "x") :=
  ⟨c10_sender_spoofing.1 mainStA 7 8 "x" (some "A") (some "B") "t",
   c10_sender_spoofing.2 mainStA 9 "A" clientA "zzz" "x" "t" (by decide) (by decide) rfl⟩

/-- Keys after inserting into a language group: unchanged when the key exists,
else the new key is appended. -/
theorem mem_keys_add_to_lang_group (g : List (String × List String)) (lang cid k : String) :
    k ∈ (add_to_lang_group g lang cid).map Prod.fst ↔
      k ∈ g.map Prod.fst ∨ k = lang := by
  induction g with
  | nil => simp [add_to_lang_group]
  | cons p g ih =>
    by_cases hp : p.1 = lang
    · simp only [add_to_lang_group, if_pos hp, List.map_cons, List.mem_cons, ih]
      constructor
      · rintro (h | h)
        · exact Or.inl (Or.inl h)
        · exact Or.inl (Or.inr h)
      · rintro ((h | h) | h)
        · exact Or.inl h
        · exact Or.inr h
        · exact Or.inl (hp ▸ h)
    · simp only [add_to_lang_group, if_neg hp, List.map_cons, List.mem_cons, ih]
      tauto

/-- Key uniqueness (the dict property) is preserved by insertion. -/
theorem nodup_keys_add_to_lang_group (g : List (String × List String)) (lang cid : String)
    (h : (g.map Prod.fst).Nodup) : ((add_to_lang_group g lang cid).map Prod.fst).Nodup := by
  induction g with
  | nil => simp [add_to_lang_group]
  | cons p g ih =>
    rw [List.map_cons, List.nodup_cons] at h
    by_cases hp : p.1 = lang
    · simpa [add_to_lang_group, if_pos hp, List.nodup_cons] using h
    · rw [show add_to_lang_group (p :: g) lang cid =
          p :: add_to_lang_group g lang cid by simp [add_to_lang_group, hp]]
      rw [List.map_cons, List.nodup_cons]
      refine ⟨?_, ih h.2⟩
      rw [mem_keys_add_to_lang_group]
      rintro (hm | hm)
      · exact h.1 hm
      · exact hp hm

/-- Every member of a group after insertion is either the inserted id under the
inserted key, or was already a member of a group with the same key. -/
theorem add_group_sound (g : List (String × List String)) (lang cid : String) :
    ∀ p ∈ add_to_lang_group g lang cid, ∀ x ∈ p.2,
      (x = cid ∧ p.1 = lang) ∨ ∃ q ∈ g, q.1 = p.1 ∧ x ∈ q.2 := by
  induction g with
  | nil =>
    intro p hp x hx
    simp [add_to_lang_group] at hp
    subst hp
    simp at hx
    exact Or.inl ⟨hx, rfl⟩
  | cons q g ih =>
    intro p hp x hx
    by_cases hq : q.1 = lang
    · rw [show add_to_lang_group (q :: g) lang cid =
          (q.1, q.2 ++ [cid]) :: g by simp [add_to_lang_group, hq]] at hp
      rcases List.mem_cons.mp hp with hp | hp
      · subst hp
        simp only at hx
        rcases List.mem_append.mp hx with hx | hx
        · exact Or.inr ⟨q, List.mem_cons_self q g, rfl, hx⟩
        · simp at hx
          exact Or.inl ⟨hx, hq⟩
      · exact Or.inr ⟨p, List.mem_cons_of_mem q hp, rfl, hx⟩
    · rw [show add_to_lang_group (q :: g) lang cid =
          q :: add_to_lang_group g lang cid by simp [add_to_lang_group, hq]] at hp
      rcases List.mem_cons.mp hp with hp | hp
      · subst hp
        exact Or.inr ⟨p, List.mem_cons_self p g, rfl, hx⟩
      · rcases ih p hp x hx with h | ⟨r, hr, hrk, hrx⟩
        · exact Or.inl h
        · exact Or.inr ⟨r, List.mem_cons_of_mem q hr, hrk, hrx⟩

/-- The inserted id is a member of a group keyed by the inserted language. -/
theorem add_group_self (g : List (String × List String)) (lang cid : String) :
    ∃ p ∈ add_to_lang_group g lang cid, p.1 = lang ∧ cid ∈ p.2 := by
  induction g with
  | nil => exact ⟨(lang, [cid]), by simp [add_to_lang_group]⟩
  | cons q g ih =>
    by_cases hq : q.1 = lang
    · refine ⟨(q.1, q.2 ++ [cid]), ?_, hq, by simp⟩
      rw [show add_to_lang_group (q :: g) lang cid =
          (q.1, q.2 ++ [cid]) :: g by simp [add_to_lang_group, hq]]
      exact List.mem_cons_self _ _
    · obtain ⟨p, hp, hk, hx⟩ := ih
      refine ⟨p, ?_, hk, hx⟩
      rw [show add_to_lang_group (q :: g) lang cid =
          q :: add_to_lang_group g lang cid by simp [add_to_lang_group, hq]]
      exact List.mem_cons_of_mem q hp

/-- Existing memberships survive insertion, under the same key. -/
theorem add_group_keeps (g : List (String × List String)) (lang cid : String) :
    ∀ q ∈ g, ∀ x ∈ q.2, ∃ p ∈ add_to_lang_group g lang cid, p.1 = q.1 ∧ x ∈ p.2 := by
  induction g with
  | nil => intro q hq; simp at hq
  | cons r g ih =>
    intro q hq x hx
    by_cases hr : r.1 = lang
    · rw [show add_to_lang_group (r :: g) lang cid =
          (r.1, r.2 ++ [cid]) :: g by simp [add_to_lang_group, hr]]
      rcases List.mem_cons.mp hq with hq | hq
      · subst hq
        exact ⟨(q.1, q.2 ++ [cid]), List.mem_cons_self _ _, rfl, List.mem_append_left _ hx⟩
      · exact ⟨q, List.mem_cons_of_mem _ hq, rfl, hx⟩
    · rw [show add_to_lang_group (r :: g) lang cid =
          r :: add_to_lang_group g lang cid by simp [add_to_lang_group, hr]]
      rcases List.mem_cons.mp hq with hq | hq
      · subst hq
        exact ⟨q, List.mem_cons_self _ _, rfl, hx⟩
      · obtain ⟨p, hp, hk, hmx⟩ := ih q hq x hx
        exact ⟨p, List.mem_cons_of_mem _ hp, hk, hmx⟩

/-- Groups stay duplicate-free across insertion provided the inserted id was in
no group beforehand. -/
theorem add_group_nodup (g : List (String × List String)) (lang cid : String)
    (h1 : ∀ q ∈ g, q.2.Nodup) (h2 : ∀ q ∈ g, cid ∉ q.2) :
    ∀ p ∈ add_to_lang_group g lang cid, p.2.Nodup := by
  induction g with
  | nil =>
    intro p hp
    simp [add_to_lang_group] at hp
    subst hp
    simp
  | cons q g ih =>
    intro p hp
    by_cases hq : q.1 = lang
    · rw [show add_to_lang_group (q :: g) lang cid =
          (q.1, q.2 ++ [cid]) :: g by simp [add_to_lang_group, hq]] at hp
      rcases List.mem_cons.mp hp with hp | hp
      · subst hp
        simp only
        rw [List.nodup_append]
        refine ⟨h1 q (List.mem_cons_self q g), by simp, ?_⟩
        intro a ha hb
        simp at hb
        subst hb
        exact h2 q (List.mem_cons_self q g) ha
      · exact h1 p (List.mem_cons_of_mem q hp)
    · rw [show add_to_lang_group (q :: g) lang cid =
          q :: add_to_lang_group g lang cid by simp [add_to_lang_group, hq]] at hp
      rcases List.mem_cons.mp hp with hp | hp
      · subst hp
        exact h1 p (List.mem_cons_self p g)
      · exact ih (fun r hr => h1 r (List.mem_cons_of_mem q hr))
          (fun r hr => h2 r (List.mem_cons_of_mem q hr)) p hp

/-- After removal, no group contains the removed id, and every member was a
member of a group with the same key beforehand (groups must be duplicate-free
for the first part, since erase removes a single occurrence). -/
theorem remove_groups_sound (g : List (String × List String)) (cid : String)
    (hn : ∀ q ∈ g, q.2.Nodup) :
    ∀ p ∈ remove_from_all_lang_groups g cid, ∀ x ∈ p.2,
      x ≠ cid ∧ ∃ q ∈ g, q.1 = p.1 ∧ x ∈ q.2 := by
  induction g with
  | nil => intro p hp; simp [remove_from_all_lang_groups] at hp
  | cons q g ih =>
    intro p hp x hx
    have hq2 : q.2.Nodup := hn q (List.mem_cons_self q g)
    have ihg := ih (fun r hr => hn r (List.mem_cons_of_mem q hr))
    by_cases hm : cid ∈ q.2
    · rw [show remove_from_all_lang_groups (q :: g) cid =
          (if q.2.erase cid = [] then [] else [(q.1, q.2.erase cid)]) ++
            remove_from_all_lang_groups g cid
          by simp [remove_from_all_lang_groups, hm]] at hp
      rcases List.mem_append.mp hp with hp | hp
      · by_cases he : q.2.erase cid = []
        · simp [he] at hp
        · simp only [if_neg he, List.mem_singleton] at hp
          subst hp
          simp only at hx
          have := (List.Nodup.mem_erase_iff hq2).mp hx
          exact ⟨this.1, q, List.mem_cons_self q g, rfl, this.2⟩
      · obtain ⟨hne, r, hr, hk, hmx⟩ := ihg p hp x hx
        exact ⟨hne, r, List.mem_cons_of_mem q hr, hk, hmx⟩
    · rw [show remove_from_all_lang_groups (q :: g) cid =
          q :: remove_from_all_lang_groups g cid
          by simp [remove_from_all_lang_groups, hm]] at hp
      rcases List.mem_cons.mp hp with hp | hp
      · subst hp
        exact ⟨fun he => hm (he ▸ hx), p, List.mem_cons_self p g, rfl, hx⟩
      · obtain ⟨hne, r, hr, hk, hmx⟩ := ihg p hp x hx
        exact ⟨hne, r, List.mem_cons_of_mem q hr, hk, hmx⟩

/-- Groups stay duplicate-free across removal. -/
theorem remove_groups_nodup (g : List (String × List String)) (cid : String)
    (hn : ∀ q ∈ g, q.2.Nodup) :
    ∀ p ∈ remove_from_all_lang_groups g cid, p.2.Nodup := by
  induction g with
  | nil => intro p hp; simp [remove_from_all_lang_groups] at hp
  | cons q g ih =>
    intro p hp
    have ihg := ih (fun r hr => hn r (List.mem_cons_of_mem q hr))
    by_cases hm : cid ∈ q.2
    · rw [show remove_from_all_lang_groups (q :: g) cid =
          (if q.2.erase cid = [] then [] else [(q.1, q.2.erase cid)]) ++
            remove_from_all_lang_groups g cid
          by simp [remove_from_all_lang_groups, hm]] at hp
      rcases List.mem_append.mp hp with hp | hp
      · by_cases he : q.2.erase cid = []
        · simp [he] at hp
        · simp only [if_neg he, List.mem_singleton] at hp
          subst hp
          exact (hn q (List.mem_cons_self q g)).erase cid
      · exact ihg p hp
    · rw [show remove_from_all_lang_groups (q :: g) cid =
          q :: remove_from_all_lang_groups g cid
          by simp [remove_from_all_lang_groups, hm]] at hp
      rcases List.mem_cons.mp hp with hp | hp
      · subst hp
        exact hn p (List.mem_cons_self p g)
      · exact ihg p hp

/-- Removal only deletes keys: the remaining keys form a sublist. -/
theorem keys_remove_sublist (g : List (String × List String)) (cid : String) :
    ((remove_from_all_lang_groups g cid).map Prod.fst).Sublist (g.map Prod.fst) := by
  induction g with
  | nil => simp [remove_from_all_lang_groups]
  | cons q g ih =>
    by_cases hm : cid ∈ q.2
    · rw [show remove_from_all_lang_groups (q :: g) cid =
          (if q.2.erase cid = [] then [] else [(q.1, q.2.erase cid)]) ++
            remove_from_all_lang_groups g cid
          by simp [remove_from_all_lang_groups, hm]]
      by_cases he : q.2.erase cid = []
      · simp only [if_pos he, List.nil_append]
        exact ih.trans (List.sublist_cons_self _ _)
      · simp only [if_neg he, List.singleton_append, List.map_cons]
        exact ih.cons₂ _
    · rw [show remove_from_all_lang_groups (q :: g) cid =
          q :: remove_from_all_lang_groups g cid
          by simp [remove_from_all_lang_groups, hm]]
      simp only [List.map_cons]
      exact ih.cons₂ q.1

/-- Memberships of other ids survive removal, under the same key. -/
theorem remove_groups_keeps (g : List (String × List String)) (cid : String) :
    ∀ q ∈ g, ∀ x ∈ q.2, x ≠ cid →
      ∃ p ∈ remove_from_all_lang_groups g cid, p.1 = q.1 ∧ x ∈ p.2 := by
  induction g with
  | nil => intro q hq; simp at hq
  | cons r g ih =>
    intro q hq x hx hne
    by_cases hm : cid ∈ r.2
    · rw [show remove_from_all_lang_groups (r :: g) cid =
          (if r.2.erase cid = [] then [] else [(r.1, r.2.erase cid)]) ++
            remove_from_all_lang_groups g cid
          by simp [remove_from_all_lang_groups, hm]]
      rcases List.mem_cons.mp hq with hq | hq
      · subst hq
        have hxe : x ∈ q.2.erase cid := (List.mem_erase_of_ne hne).mpr hx
        have hno : ¬ q.2.erase cid = [] := by
          intro hc
          rw [hc] at hxe
          simp at hxe
        refine ⟨(q.1, q.2.erase cid), ?_, rfl, hxe⟩
        simp [hno]
      · obtain ⟨p, hp, hk, hmx⟩ := ih q hq x hx hne
        exact ⟨p, List.mem_append_right _ hp, hk, hmx⟩
    · rw [show remove_from_all_lang_groups (r :: g) cid =
          r :: remove_from_all_lang_groups g cid
          by simp [remove_from_all_lang_groups, hm]]
      rcases List.mem_cons.mp hq with hq | hq
      · subst hq
        exact ⟨q, List.mem_cons_self _ _, rfl, hx⟩
      · obtain ⟨p, hp, hk, hmx⟩ := ih q hq x hx hne
        exact ⟨p, List.mem_cons_of_mem r hp, hk, hmx⟩

/-- Mapping a per-object update over the heap leaves any field it preserves
unchanged under a further projection. -/
theorem map_comp_eq {α β : Type} (cs : List α) (f : α → α) (g : α → β)
    (h : ∀ c, g (f c) = g c) : (cs.map f).map g = cs.map g := by
  induction cs with
  | nil => rfl
  | cons c cs ih => simp [h, ih]

/-- Live clients are determined by their id when ids are duplicate-free. -/
theorem client_id_inj (cs : List ConnMgr.ClientConnection)
    (h : (cs.map (fun c => c.client_id)).Nodup) :
    ∀ a ∈ cs, ∀ b ∈ cs, a.client_id = b.client_id → a = b := by
  intro a ha b hb hab
  exact List.inj_on_of_nodup_map h ha hb hab

/-- A heap update that changes neither ids nor languages preserves the registry
invariant (covers the display-name assignment). -/
theorem inv_map_preserving (st : ConnMgr.State) (f : ConnMgr.ClientConnection → ConnMgr.ClientConnection)
    (hid : ∀ c, (f c).client_id = c.client_id)
    (hlang : ∀ c, (f c).preferred_lang = c.preferred_lang)
    (h : ConnMgr.Inv st) :
    ConnMgr.Inv { st with active_connections := st.active_connections.map f } := by
  refine ⟨?_, h.nodup_keys, h.groups_nodup, ?_, ?_⟩
  · simpa [map_comp_eq _ f _ hid] using h.nodup_ids
  · intro p hp x hx
    obtain ⟨c, hcm, hcid, hclang⟩ := h.mem_sound p hp x hx
    exact ⟨f c, List.mem_map_of_mem f hcm, (hid c).trans hcid, (hlang c).trans hclang⟩
  · intro c hc
    obtain ⟨c0, hc0, hc0e⟩ := List.mem_map.mp hc
    obtain ⟨p, hp, hk, hmx⟩ := h.complete c0 hc0
    refine ⟨p, hp, ?_, ?_⟩
    · rw [hk, ← hc0e, hlang c0]
    · rw [← hc0e, hid c0]
      exact hmx

/-- Registration preserves the registry invariant when the drawn uuid4 is
fresh. -/
theorem inv_register_client (st : ConnMgr.State) (w : Nat) (is_pi : Bool) (nid : String)
    (h : ConnMgr.Inv st)
    (hfresh : nid ∉ st.active_connections.map (fun c => c.client_id)) :
    ConnMgr.Inv (ConnMgr.register_client st w is_pi nid) := by
  refine ⟨?_, ?_, ?_, ?_, ?_⟩
  · simp only [ConnMgr.register_client, List.map_append, List.map_cons, List.map_nil]
    rw [List.nodup_append]
    refine ⟨h.nodup_ids, by simp, ?_⟩
    intro a ha hb
    simp at hb
    subst hb
    exact hfresh ha
  · exact nodup_keys_add_to_lang_group _ _ _ h.nodup_keys
  · refine add_group_nodup _ _ _ h.groups_nodup ?_
    intro q hq hc
    obtain ⟨c, hcm, hcid, _⟩ := h.mem_sound q hq nid hc
    exact hfresh (hcid ▸ List.mem_map_of_mem _ hcm)
  · intro p hp x hx
    rcases add_group_sound _ _ _ p hp x hx with ⟨hxe, hpk⟩ | ⟨q, hq, hk, hmx⟩
    · subst hxe
      refine ⟨{ ws := w, client_id := x, preferred_lang := "en",
                display_name := "Client-" ++ py_take 8 x }, ?_, rfl, hpk.symm⟩
      simp [ConnMgr.register_client]
    · obtain ⟨c, hcm, hcid, hclang⟩ := h.mem_sound q hq x hmx
      exact ⟨c, List.mem_append_left _ hcm, hcid, hk ▸ hclang⟩
  · intro c hc
    simp only [ConnMgr.register_client, List.mem_append, List.mem_singleton] at hc
    rcases hc with hc | hc
    · obtain ⟨p, hp, hk, hmx⟩ := h.complete c hc
      obtain ⟨q, hq, hk2, hmx2⟩ := add_group_keeps st.lang_groups "en" nid p hp c.client_id hmx
      exact ⟨q, hq, hk2.trans hk, hmx2⟩
    · subst hc
      obtain ⟨p, hp, hk, hmx⟩ := add_group_self st.lang_groups "en" nid
      exact ⟨p, hp, hk, hmx⟩

/-- Unregistering preserves the registry invariant. -/
theorem inv_disconnect (st : ConnMgr.State) (w : Nat) (h : ConnMgr.Inv st) :
    ConnMgr.Inv (ConnMgr.disconnect st w) := by
  cases hws : ConnMgr.get_client_by_ws st w with
  | none => simpa [ConnMgr.disconnect, hws] using h
  | some client =>
    have hcm : client ∈ st.active_connections := List.mem_of_find?_eq_some hws
    have hnodup : st.active_connections.Nodup := List.Nodup.of_map _ h.nodup_ids
    simp only [ConnMgr.disconnect, hws]
    refine ⟨?_, ?_, ?_, ?_, ?_⟩
    · exact h.nodup_ids.sublist ((List.erase_sublist client _).map _)
    · exact h.nodup_keys.sublist (keys_remove_sublist _ _)
    · exact remove_groups_nodup _ _ h.groups_nodup
    · intro p hp x hx
      obtain ⟨hne, q, hq, hk, hmx⟩ := remove_groups_sound _ _ h.groups_nodup p hp x hx
      obtain ⟨c, hcmem, hcid, hclang⟩ := h.mem_sound q hq x hmx
      refine ⟨c, ?_, hcid, hk ▸ hclang⟩
      refine (List.Nodup.mem_erase_iff hnodup).mpr ⟨?_, hcmem⟩
      intro hce
      exact hne (hcid ▸ (congrArg (fun c => c.client_id) hce) ▸ rfl)
    · intro c hc
      obtain ⟨hcne, hcmem⟩ := (List.Nodup.mem_erase_iff hnodup).mp hc
      have hidne : c.client_id ≠ client.client_id := by
        intro hcid
        exact hcne (client_id_inj _ h.nodup_ids c hcmem client hcm hcid)
      obtain ⟨p, hp, hk, hmx⟩ := h.complete c hcmem
      obtain ⟨q, hq, hk2, hmx2⟩ :=
        remove_groups_keeps st.lang_groups client.client_id p hp c.client_id hmx hidne
      exact ⟨q, hq, hk2.trans hk, hmx2⟩

/-- Language (and display-name) update preserves the registry invariant. -/
theorem inv_update_client_lang (st : ConnMgr.State) (w : Nat) (new_lang : String)
    (dn : Option String) (h : ConnMgr.Inv st) :
    ConnMgr.Inv (ConnMgr.update_client_lang st w new_lang dn) := by
  cases hws : ConnMgr.get_client_by_ws st w with
  | none => simpa [ConnMgr.update_client_lang, hws] using h
  | some client =>
    have hcm : client ∈ st.active_connections := List.mem_of_find?_eq_some hws
    simp only [ConnMgr.update_client_lang, hws]
    have hst1 : ∀ st1 : ConnMgr.State,
        (st1 = if client.preferred_lang ≠ ConnMgr.normalize_lang new_lang then
          { st with
            active_connections :=
              ConnMgr.set_client_lang st.active_connections client.client_id
                (ConnMgr.normalize_lang new_lang),
            lang_groups :=
              add_to_lang_group
                (remove_from_all_lang_groups st.lang_groups client.client_id)
                (ConnMgr.normalize_lang new_lang) client.client_id }
          else st) → ConnMgr.Inv st1 := by
      intro st1 hdef
      by_cases hneq : client.preferred_lang ≠ ConnMgr.normalize_lang new_lang
      · rw [hdef, if_pos hneq]
        set norm := ConnMgr.normalize_lang new_lang with hnorm
        have hid : ∀ c : ConnMgr.ClientConnection,
            (if c.client_id = client.client_id then { c with preferred_lang := norm } else c).client_id
              = c.client_id := by
          intro c
          split <;> rfl
        refine ⟨?_, ?_, ?_, ?_, ?_⟩
        · unfold ConnMgr.set_client_lang
          rw [map_comp_eq _ _ _ hid]
          exact h.nodup_ids
        · exact nodup_keys_add_to_lang_group _ _ _
            (h.nodup_keys.sublist (keys_remove_sublist _ _))
        · refine add_group_nodup _ _ _ (remove_groups_nodup _ _ h.groups_nodup) ?_
          intro q hq hc
          exact (remove_groups_sound _ _ h.groups_nodup q hq client.client_id hc).1 rfl
        · intro p hp x hx
          rcases add_group_sound _ _ _ p hp x hx with ⟨hxe, hpk⟩ | ⟨q, hq, hk, hmx⟩
          · subst hxe
            refine ⟨{ client with preferred_lang := norm }, ?_, rfl, hpk.symm⟩
            unfold ConnMgr.set_client_lang
            have : (if client.client_id = client.client_id then
                { client with preferred_lang := norm } else client) =
                { client with preferred_lang := norm } := by simp
            exact this ▸ List.mem_map_of_mem _ hcm
          · obtain ⟨hne, r, hr, hk2, hmx2⟩ :=
              remove_groups_sound _ _ h.groups_nodup q hq x hmx
            obtain ⟨c, hcmem, hcid, hclang⟩ := h.mem_sound r hr x hmx2
            have hcne : ¬ c.client_id = client.client_id := by
              rw [hcid]
              exact hne
            refine ⟨c, ?_, hcid, by rw [hclang, hk2, hk]⟩
            unfold ConnMgr.set_client_lang
            have : (if c.client_id = client.client_id then
                { c with preferred_lang := norm } else c) = c := by simp [hcne]
            exact this ▸ List.mem_map_of_mem _ hcmem
        · intro c hc
          unfold ConnMgr.set_client_lang at hc
          obtain ⟨c0, hc0, hc0e⟩ := List.mem_map.mp hc
          by_cases hc0id : c0.client_id = client.client_id
          · have hc0c : c0 = client := client_id_inj _ h.nodup_ids c0 hc0 client hcm hc0id
            obtain ⟨p, hp, hk, hmx⟩ :=
              add_group_self (remove_from_all_lang_groups st.lang_groups client.client_id)
                norm client.client_id
            subst hc0c
            rw [← hc0e]
            simp only [if_pos hc0id]
            exact ⟨p, hp, hk, by simpa using hmx⟩
          · rw [← hc0e]
            simp only [if_neg hc0id]
            obtain ⟨p, hp, hk, hmx⟩ := h.complete c0 hc0
            obtain ⟨q, hq, hk2, hmx2⟩ :=
              remove_groups_keeps st.lang_groups client.client_id p hp c0.client_id hmx hc0id
            obtain ⟨q2, hq2, hk3, hmx3⟩ :=
              add_group_keeps _ norm client.client_id q hq c0.client_id hmx2
            exact ⟨q2, hq2, by rw [hk3, hk2, hk], hmx3⟩
      · rw [hdef, if_neg hneq]
        exact h
    cases dn with
    | none => exact hst1 _ rfl
    | some d =>
      by_cases hd : d ≠ "" ∧ d ≠ client.display_name
      · simp only [if_pos hd]
        refine inv_map_preserving _ _ ?_ ?_ (hst1 _ rfl)
        · intro c
          split <;> rfl
        · intro c
          split <;> rfl
      · simp only [if_neg hd]
        exact hst1 _ rfl

/-- Bool membership test agrees with membership. -/
theorem contains_iff_mem {x : String} {l : List String} : l.contains x = true ↔ x ∈ l := by
  simp [List.contains_eq_any_beq, List.any_eq_true]

/-- One step of the endpoint loop preserves the registry invariant (freshness of
the uuid4 drawn by connect is the side condition recorded by admissible). -/
theorem inv_step (st : ConnMgr.State) (op : ConnMgr.Op) (h : ConnMgr.Inv st)
    (hadm : ConnMgr.connect_fresh st op = true) :
    ConnMgr.Inv (ConnMgr.step st op) := by
  cases op with
  | connect w is_pi nid =>
    have hfresh : nid ∉ st.active_connections.map (fun c => c.client_id) := by
      intro hmem
      simp only [ConnMgr.connect_fresh, Bool.not_eq_true'] at hadm
      rw [show (st.active_connections.map (fun c => c.client_id)).contains nid = true from
        contains_iff_mem.mpr hmem] at hadm
      cases hadm
    by_cases hc : (is_pi && st.pi_client_id.isSome) = true
    · simpa [ConnMgr.step, ConnMgr.connect, hc] using h
    · simpa [ConnMgr.step, ConnMgr.connect, hc] using inv_register_client st w is_pi nid h hfresh
  | disconnect w => exact inv_disconnect st w h
  | set_lang w lang name => exact inv_update_client_lang st w lang name h

/-- Running an admissible sequence of operations preserves the invariant. -/
theorem inv_run (ops : List ConnMgr.Op) (st : ConnMgr.State) (h : ConnMgr.Inv st)
    (hadm : ConnMgr.admissible st ops = true) : ConnMgr.Inv (ConnMgr.run st ops) := by
  induction ops generalizing st with
  | nil => exact h
  | cons op ops ih =>
    have hsplit : ConnMgr.connect_fresh st op = true ∧
        ConnMgr.admissible (ConnMgr.step st op) ops = true := by
      rw [← Bool.and_eq_true]
      exact hadm
    exact ih (ConnMgr.step st op) (inv_step st op h hsplit.1) hsplit.2

/-- A duplicate-free key list, soundness of memberships and existence of one
membership pin the number of groups containing an id to exactly one. -/
theorem countP_groups_eq_one (g : List (String × List String))
    (hk : (g.map Prod.fst).Nodup) (L x : String)
    (hall : ∀ p ∈ g, x ∈ p.2 → p.1 = L)
    (hex : ∃ p ∈ g, p.1 = L ∧ x ∈ p.2) :
    g.countP (fun p => p.2.contains x) = 1 := by
  induction g with
  | nil =>
    obtain ⟨p, hp, _⟩ := hex
    simp at hp
  | cons q g ih =>
    rw [List.map_cons, List.nodup_cons] at hk
    by_cases hq : x ∈ q.2
    · have hcq : (q.2.contains x) = true := contains_iff_mem.mpr hq
      have hzero : g.countP (fun p => p.2.contains x) = 0 := by
        rw [List.countP_eq_zero]
        intro p hp hpx
        have hpxm : x ∈ p.2 := contains_iff_mem.mp (by simpa using hpx)
        have hpL : p.1 = L := hall p (List.mem_cons_of_mem q hp) hpxm
        have hqL : q.1 = L := hall q (List.mem_cons_self q g) hq
        exact hk.1 ((hqL.trans hpL.symm) ▸ List.mem_map_of_mem Prod.fst hp)
      rw [List.countP_cons, hzero]
      show 0 + (if (q.2.contains x) = true then 1 else 0) = 1
      rw [hcq, if_pos rfl]
    · have hcq : (q.2.contains x) = false := by
        rw [← Bool.not_eq_true]
        exact fun hcontra => hq (contains_iff_mem.mp hcontra)
      rw [List.countP_cons]
      show List.countP (fun p => p.2.contains x) g + (if (q.2.contains x) = true then 1 else 0) = 1
      rw [hcq, if_neg (by simp), Nat.add_zero]
      refine ih hk.2 (fun p hp => hall p (List.mem_cons_of_mem q hp)) ?_
      obtain ⟨p, hp, hkL, hmx⟩ := hex
      rcases List.mem_cons.mp hp with hp | hp
      · exact absurd (hp ▸ hmx) hq
      · exact ⟨p, hp, hkL, hmx⟩

/-- The registry invariant entails the executable language-directory
consistency check. -/
theorem inv_lang_directory_consistent (st : ConnMgr.State) (h : ConnMgr.Inv st) :
    ConnMgr.lang_directory_consistent st = true := by
  unfold ConnMgr.lang_directory_consistent
  rw [List.all_eq_true]
  intro c hc
  have hkey : ∀ p ∈ st.lang_groups, c.client_id ∈ p.2 → p.1 = c.preferred_lang := by
    intro p hp hx
    obtain ⟨c2, hc2, hc2id, hc2lang⟩ := h.mem_sound p hp _ hx
    have hcc : c2 = c := client_id_inj _ h.nodup_ids c2 hc2 c hc hc2id
    rw [← hc2lang, hcc]
  rw [Bool.and_eq_true]
  constructor
  · rw [beq_iff_eq]
    apply countP_groups_eq_one st.lang_groups h.nodup_keys c.preferred_lang c.client_id hkey
    obtain ⟨p, hp, hk, hmx⟩ := h.complete c hc
    exact ⟨p, hp, hk, hmx⟩
  · rw [List.all_eq_true]
    intro p hp
    by_cases hx : c.client_id ∈ p.2
    · have := hkey p hp hx
      simp [this]
    · have : p.2.contains c.client_id = false := by
        rw [← Bool.not_eq_true]
        intro hcontra
        exact hx (contains_iff_mem.mp hcontra)
      simp only [this, Bool.not_false, Bool.true_or]

/-- C2: after every admissible sequence of register (connect), unregister
(disconnect) and set_lang (update_client_lang) operations from the initial
state (admissible records only that the uuid4 ids drawn by connect are fresh),
every live Session appears in the language-group mapping under exactly one
language key, that key equals its current preferred_lang, and it appears under
no other key. Every prefix of an admissible sequence is admissible, so this is
the after-each-operation invariant. -/
theorem c2_lang_directory_invariant (ops : List ConnMgr.Op)
    (h : ConnMgr.admissible ConnMgr.init_state ops = true) :
    ConnMgr.lang_directory_consistent (ConnMgr.run ConnMgr.init_state ops) = true := by
  apply inv_lang_directory_consistent
  refine inv_run ops ConnMgr.init_state ⟨?_, ?_, ?_, ?_, ?_⟩ h
  · simp [ConnMgr.init_state]
  · simp [ConnMgr.init_state]
  · intro p hp
    simp [ConnMgr.init_state] at hp
  · intro p hp
    simp [ConnMgr.init_state] at hp
  · intro c hc
    simp [ConnMgr.init_state] at hc

/-- C2 (witness). -/
theorem c2_witness :
    ConnMgr.lang_directory_consistent (ConnMgr.run ConnMgr.init_state
      [.connect 1 false "ida", .set_lang 1 "ES" (some "Ann"), .connect 2 true "idb",
       .disconnect 1, .set_lang 2 "zh-Hant" none, .set_lang 9 "fr" none,
       .connect 3 true "idc", .disconnect 7]) = true :=
  c2_lang_directory_invariant _ (by decide)
